import Mathlib

/-
Verification of the YAFFS2 extractor (src/yaffs-extractor.py) against its
natural-language specification.

The source file is not runnable Python as committed (mixed tab/space
indentation, `if spare.seq_number = ...` where a comparison is meant,
`self.data_len` never assigned, association accesses written as
`d[k] is None` where a missing key is meant).  Following the spec's own
defect list (§9), each such spot is embedded at its evident intended
reading, which is noted in a comment at the definition; every place where
the source's *semantics* genuinely diverges from the spec (wrong variable
tested, commented-out logic, missing truncation, unreachable branch) is
embedded exactly as the source has it.

Bytes are modelled as `Nat`s in a `List Nat`; machine integers are `Nat`
with explicit byte recombination.  Python dictionaries are modelled as
association lists in insertion order (`dictInsert` keeps an existing
key's position, appends new keys at the end, exactly like a Python dict);
`alookup` is keyed lookup.  Python exceptions that abort `parse` are
modelled by a success flag on the result.
-/

namespace YaffsEx

/-- Endianness marker: `YAFFS.LITTLE_ENDIAN = "<"`, `YAFFS.BIG_ENDIAN = ">"`. -/
inductive Endian where
  | little
  | big
deriving DecidableEq, Repr

/-- Container mirroring `YAFFSConfig` (the fields the core reads). -/
structure Config where
  endianess : Endian
  page_size : Nat
  spare_size : Nat
  block_size : Nat
  ecclayout : Bool
  preserve_mode : Bool
  preserve_owner : Bool
  debug : Bool
  auto : Bool
deriving DecidableEq, Repr

namespace YAFFS

/-- Valid page sizes, `YAFFS.PAGE_SIZES` (line 207). -/
def PAGE_SIZES : List Nat := [512, 1024, 2048, 4096, 8192, 16384]

/-- Valid spare sizes, `YAFFS.SPARE_SIZES` (line 208). -/
def SPARE_SIZES : List Nat := [16, 32, 64, 128, 256, 512]

/-- `YAFFS.DEFAULT_PAGE_SIZE` (line 211). -/
def DEFAULT_PAGE_SIZE : Nat := 2048

/-- `YAFFS.DEFAULT_SPARE_SIZE` (line 212). -/
def DEFAULT_SPARE_SIZE : Nat := 64

/-- `YAFFS.DEFAULT_BLOCK_SIZE` (line 213): 0 means "unknown". -/
def DEFAULT_BLOCK_SIZE : Nat := 0

/-- `YAFFS.YAFFS_CHKPT_SEQ` (line 236): checkpoint-block marker. -/
def YAFFS_CHKPT_SEQ : Nat := 0x21

end YAFFS

/-- Little-endian value of a byte list (least significant byte first). -/
def bytesToNatLE : List Nat → Nat
  | [] => 0
  | b :: t => b + 256 * bytesToNatLE t

/-- `struct.unpack("%sL" % endianess, data[off:off+4])`, the body of
`YAFFS.read_long` (line 263), totalised: all call sites are guarded so
that at least 4 bytes remain. -/
def readU32 (e : Endian) (l : List Nat) (off : Nat) : Nat :=
  match e with
  | .little => bytesToNatLE ((l.drop off).take 4)
  | .big => bytesToNatLE ((l.drop off).take 4).reverse

/-- `struct.unpack("%sH" % endianess, data[off:off+2])`, the body of
`YAFFS.read_short` (line 272). -/
def readU16 (e : Endian) (l : List Nat) (off : Nat) : Nat :=
  match e with
  | .little => bytesToNatLE ((l.drop off).take 2)
  | .big => bytesToNatLE ((l.drop off).take 2).reverse

/-- `YAFFS.null_terminate_string` (lines 312-322): index of the first null
byte, defaulting to the length when there is none (`List.findIdx` returns
the length exactly when no element matches, like the `except` branch),
then truncate there. -/
def nullTerminateString (s : List Nat) : List Nat :=
  s.take (s.findIdx (· == 0))

/-- Decoded spare record, the attributes set by `YAFFSSpare.__init__`. -/
structure Spare where
  seq_number : Nat
  obj_id : Nat
  chunk_id : Nat
  n_bytes : Nat
deriving DecidableEq, Repr

/-- `YAFFSSpare.__init__` (lines 366-382).  NOTE: the two-byte skip for
`not ecclayout` is commented out in the source (lines 376-377), so the
four u32 fields are read from offsets 0, 4, 8, 12 regardless of
`config.ecclayout`.  `struct.unpack` raises when fewer than 4 bytes
remain, which happens exactly when the data is shorter than 16 bytes;
that exception is modelled as `none`. -/
def yaffsSpare (cfg : Config) (data : List Nat) : Option Spare :=
  if 16 ≤ data.length then
    some { seq_number := readU32 cfg.endianess data 0
           obj_id := readU32 cfg.endianess data 4
           chunk_id := readU32 cfg.endianess data 8
           n_bytes := readU32 cfg.endianess data 12 }
  else none

/-- Lines 459-464 of `YAFFSEntry.__init__`: combine `file_size_low` and
`file_size_high` into `self.file_size`. -/
def computeFileSize (low high : Nat) : Nat :=
  if high ≠ 0xFFFFFFFF then low ||| (high <<< 32)
  else if low ≠ 0xFFFFFFFF then low
  else 0

/-- Decoded object header, the attributes set by `YAFFSEntry.__init__`
(lines 391-464). -/
structure Entry where
  yaffs_obj_type : Nat
  parent_obj_id : Nat
  sum_no_longer_used : Nat
  name : List Nat
  yst_mode : Nat
  yst_uid : Nat
  yst_gid : Nat
  yst_atime : Nat
  yst_mtime : Nat
  yst_ctime : Nat
  file_size_low : Nat
  equiv_id : Nat
  alias' : List Nat
  yst_rdev : Nat
  win_ctime_1 : Nat
  win_ctime_2 : Nat
  win_atime_1 : Nat
  win_atime_2 : Nat
  win_mtime_1 : Nat
  win_mtime_2 : Nat
  inband_shadowed_obj_id : Nat
  inband_is_shrink : Nat
  file_size_high : Nat
  reserved : List Nat
  shadows_obj : Nat
  is_shrink : Nat
  file_size : Nat
deriving DecidableEq, Repr

/-- `YAFFSEntry.__init__` (lines 391-464).  The cursor offsets follow the
sequence of `read_next` calls: type 0 (4 bytes), parent 4, checksum 8
(2 bytes), name 10 (`YAFFS_MAX_NAME_LENGTH+1 = 254` bytes), filler 264,
mode 268, uid 272, gid 276, atime 280, mtime 284, ctime 288,
file_size_low 292, equiv_id 296, alias 300 (`159+1 = 160` bytes),
rdev 460, six WinCE words 464-487, inband_shadowed_obj_id 488,
inband_is_shrink 492, file_size_high 496, reserved 500 (1 raw byte),
shadows_obj 501, is_shrink 505.  `struct.unpack` fails exactly when the
page is shorter than 509 bytes; `YAFFSObjType.__init__` raises when the
4-byte type is not one of 0..5 (line 348-349).  Either exception is
modelled as `none`. -/
def yaffsEntry (cfg : Config) (data : List Nat) : Option Entry :=
  if 509 ≤ data.length then
    let e := cfg.endianess
    let t := readU32 e data 0
    if t ≤ 5 then
      let fsl := readU32 e data 292
      let fsh := readU32 e data 496
      some { yaffs_obj_type := t
             parent_obj_id := readU32 e data 4
             sum_no_longer_used := readU16 e data 8
             name := nullTerminateString ((data.drop 10).take 254)
             yst_mode := readU32 e data 268
             yst_uid := readU32 e data 272
             yst_gid := readU32 e data 276
             yst_atime := readU32 e data 280
             yst_mtime := readU32 e data 284
             yst_ctime := readU32 e data 288
             file_size_low := fsl
             equiv_id := readU32 e data 296
             alias' := nullTerminateString ((data.drop 300).take 160)
             yst_rdev := readU32 e data 460
             win_ctime_1 := readU32 e data 464
             win_ctime_2 := readU32 e data 468
             win_atime_1 := readU32 e data 472
             win_atime_2 := readU32 e data 476
             win_mtime_1 := readU32 e data 480
             win_mtime_2 := readU32 e data 484
             inband_shadowed_obj_id := readU32 e data 488
             inband_is_shrink := readU32 e data 492
             file_size_high := fsh
             reserved := (data.drop 500).take 1
             shadows_obj := readU32 e data 501
             is_shrink := readU32 e data 505
             file_size := computeFileSize fsl fsh }
    else none
  else none

/-- Keyed lookup in an association list (first match), modelling Python
dictionary subscripting. -/
def alookup {κ ν : Type} [DecidableEq κ] (k : κ) : List (κ × ν) → Option ν
  | [] => none
  | (k0, v) :: t => if k0 = k then some v else alookup k t

/-- Keyed update modelling Python dictionary assignment `d[k] = v`: an
existing key keeps its position, a new key is appended at the end
(insertion order, as Python dicts iterate). -/
def dictInsert {κ ν : Type} [DecidableEq κ] (k : κ) (v : ν) : List (κ × ν) → List (κ × ν)
  | [] => [(k, v)]
  | (k0, v0) :: t => if k0 = k then (k, v) :: t else (k0, v0) :: dictInsert k v t

/-- One stored chunk reference:
`file_chunks[obj]["chunks"][chunk] = {"seq": _, "nand_chunk_id": _}`
(lines 513-514). -/
structure ChunkRef where
  seq : Nat
  nand_chunk_id : Nat
deriving DecidableEq, Repr

/-- The extractor state built by `YAFFSExtractor.parse`.  The source's
nested `file_chunks[obj]["chunks"][chunk]` is flattened to the key
`(obj_id, chunk_id)`; presence of the pair key coincides with the
source's two-level presence test on line 512. -/
structure PState where
  file_chunks : List ((Nat × Nat) × ChunkRef)
  file_entries : List (Nat × Entry)
deriving DecidableEq, Repr

/-- The `(obj_id, chunk_id)` key of a spare. -/
def keyOf (s : Spare) : Nat × Nat := (s.obj_id, s.chunk_id)

/-- The merge condition of line 512: store the incoming chunk when no
reference is held for its key, or when the stored `seq` is strictly
smaller than the incoming `seq_number`.  On equality the stored (earlier
in file order) reference wins and the loop takes the `else: continue`
branch. -/
def chunkWins : Option ChunkRef → Spare → Bool
  | none, _ => true
  | some r, s => decide (r.seq < s.seq_number)

/-- One raw chunk as returned by `YAFFS.read_block`: page bytes and spare
bytes. -/
def RawChunk : Type := List Nat × List Nat

/-- The loop body of `YAFFSExtractor.parse` (lines 500-522) over the
remaining chunk list.  The `skip` counter models the cursor advance of
`proceed_block` (lines 305-310): `offset += (block_size-1)*(spare+page)`
drops the next `block_size - 1` raw chunks unread.

Embedded readings of the source's defects, per the spec's §9 defect list:
`if spare.seq_number = YAFFS_CHKPT_SEQ` (line 507) is a comparison;
`self.data_len` (line 502) is the data length (the loop runs while
chunks remain); the `is None` membership tests of line 512 test key
presence.  Genuine control flow is kept exactly: a checkpoint chunk does
`continue`, so the final `nand_chunk_id += 1` is skipped; a losing chunk
(line 519 `else: continue`) likewise skips the increment; a winning
chunk with `spare.obj_id == 0` decodes the page as a header
(line 515 tests `obj_id`, not `chunk_id`), stores it, and then line 518
reads the undefined name `parent_obj_id`, a `NameError` that aborts the
parse (modelled by the `false` success flag, with the state mutations
already applied kept, as Python keeps them on `self`). -/
def parseGo (cfg : Config) : List RawChunk → Nat → Nat → PState → PState × Bool
  | [], _, _, st => (st, true)
  | _ :: rest, nand, skip + 1, st => parseGo cfg rest nand skip st
  | (page, spareB) :: rest, nand, 0, st =>
    match yaffsSpare cfg spareB with
    | none => (st, false)
    | some s =>
      if s.seq_number = YAFFS.YAFFS_CHKPT_SEQ then
        if cfg.block_size ≠ YAFFS.DEFAULT_BLOCK_SIZE then
          parseGo cfg rest (nand + (cfg.block_size - 1)) (cfg.block_size - 1) st
        else
          parseGo cfg rest nand 0 st
      else
        if chunkWins (alookup (keyOf s) st.file_chunks) s then
          let st' : PState :=
            { st with
              file_chunks :=
                dictInsert (keyOf s) ⟨s.seq_number, nand⟩ st.file_chunks }
          if s.obj_id = 0 then
            match yaffsEntry cfg page with
            | none => (st', false)
            | some e =>
              ({ st' with file_entries := dictInsert s.obj_id e st'.file_entries }, false)
          else
            parseGo cfg rest (nand + 1) 0 st'
        else
          parseGo cfg rest nand 0 st

/-- `YAFFSExtractor.parse` (lines 495-522) from the initial state of
`__init__` (lines 483-493): empty maps, `nand_chunk_id = 0`. -/
def parse (cfg : Config) (chunks : List RawChunk) : PState × Bool :=
  parseGo cfg chunks 0 0 ⟨[], []⟩

/-- The spares that reach the merge comparison of line 512, in file
order: every chunk the loop reads whose decode succeeds and whose
`seq_number` is not the checkpoint marker.  Checkpoint chunks and the
chunks skipped by `proceed_block` contribute nothing. -/
def scannedSpares (cfg : Config) : List RawChunk → Nat → List Spare
  | [], _ => []
  | _ :: rest, skip + 1 => scannedSpares cfg rest skip
  | (_, spareB) :: rest, 0 =>
    match yaffsSpare cfg spareB with
    | none => []
    | some s =>
      if s.seq_number = YAFFS.YAFFS_CHKPT_SEQ then
        if cfg.block_size ≠ YAFFS.DEFAULT_BLOCK_SIZE then
          scannedSpares cfg rest (cfg.block_size - 1)
        else
          scannedSpares cfg rest 0
      else
        s :: scannedSpares cfg rest 0

theorem alookup_dictInsert_self {κ ν : Type} [DecidableEq κ] (k : κ) (v : ν)
    (l : List (κ × ν)) : alookup k (dictInsert k v l) = some v := by
  induction l with
  | nil => simp [alookup, dictInsert]
  | cons h t ih =>
    obtain ⟨k0, v0⟩ := h
    by_cases hk : k0 = k <;> simp [alookup, dictInsert, hk, ih]

theorem alookup_dictInsert_ne {κ ν : Type} [DecidableEq κ] {k k' : κ} (v : ν)
    (l : List (κ × ν)) (h : k' ≠ k) :
    alookup k' (dictInsert k v l) = alookup k' l := by
  have hkk : k ≠ k' := fun hc => h hc.symm
  induction l with
  | nil => simp [alookup, dictInsert, hkk]
  | cons hd t ih =>
    obtain ⟨k0, v0⟩ := hd
    by_cases hk : k0 = k
    · subst hk
      simp [alookup, dictInsert, hkk]
    · simp [alookup, dictInsert, hk, ih]

/-- Invariant of the parse loop: on a successful run, every reference in
the final chunk map either was already in the starting map or records the
`seq_number` of some scanned spare with its key; every scanned spare with
that key has `seq_number` at most the surviving `seq`; and the `seq` at
any key never decreases from the starting map. -/
theorem parseGo_lookup_max (cfg : Config) :
    ∀ (l : List RawChunk) (skip nand : Nat) (st st' : PState),
      parseGo cfg l nand skip st = (st', true) →
      ∀ (k : Nat × Nat) (r' : ChunkRef),
        alookup k st'.file_chunks = some r' →
        (alookup k st.file_chunks = some r' ∨
          ∃ s ∈ scannedSpares cfg l skip, keyOf s = k ∧ s.seq_number = r'.seq) ∧
        (∀ s ∈ scannedSpares cfg l skip, keyOf s = k → s.seq_number ≤ r'.seq) ∧
        (∀ r0 : ChunkRef, alookup k st.file_chunks = some r0 → r0.seq ≤ r'.seq) := by
  intro l
  induction l with
  | nil =>
    intro skip nand st st' h k r' hl
    simp only [parseGo, Prod.mk.injEq] at h
    obtain ⟨rfl, -⟩ := h
    refine ⟨Or.inl hl, ?_, ?_⟩
    · intro s hs
      simp [scannedSpares] at hs
    · intro r0 h0
      rw [hl] at h0
      cases h0
      exact Nat.le_refl _
  | cons c rest ih =>
    intro skip nand st st' h k r' hl
    cases skip with
    | succ sk =>
      simp only [parseGo] at h
      simpa only [scannedSpares] using ih sk nand st st' h k r' hl
    | zero =>
      obtain ⟨page, spareB⟩ := c
      simp only [parseGo] at h
      cases hdec : yaffsSpare cfg spareB with
      | none =>
        rw [hdec] at h
        simp at h
      | some s =>
        simp only [hdec] at h
        simp only [scannedSpares, hdec]
        by_cases hseq : s.seq_number = YAFFS.YAFFS_CHKPT_SEQ
        · simp only [if_pos hseq] at h ⊢
          by_cases hbs : cfg.block_size ≠ YAFFS.DEFAULT_BLOCK_SIZE
          · simp only [if_pos hbs] at h ⊢
            exact ih (cfg.block_size - 1) (nand + (cfg.block_size - 1)) st st' h k r' hl
          · simp only [if_neg hbs] at h ⊢
            exact ih 0 nand st st' h k r' hl
        · simp only [if_neg hseq] at h ⊢
          by_cases hw : chunkWins (alookup (keyOf s) st.file_chunks) s = true
          · simp only [if_pos hw] at h
            by_cases ho : s.obj_id = 0
            · simp only [if_pos ho] at h
              cases hent : yaffsEntry cfg page <;> simp [hent] at h
            · simp only [if_neg ho] at h
              set stIns : PState :=
                { st with
                  file_chunks :=
                    dictInsert (keyOf s) ⟨s.seq_number, nand⟩ st.file_chunks } with hstIns
              obtain ⟨d1, d2, d3⟩ := ih 0 (nand + 1) stIns st' h k r' hl
              have hself : alookup (keyOf s) stIns.file_chunks =
                  some ⟨s.seq_number, nand⟩ := by
                simpa [hstIns] using
                  alookup_dictInsert_self (keyOf s)
                    (⟨s.seq_number, nand⟩ : ChunkRef) st.file_chunks
              refine ⟨?_, ?_, ?_⟩
              · rcases d1 with hin | ⟨s1, hs1, hk1, he1⟩
                · by_cases hks : keyOf s = k
                  · subst hks
                    rw [hself] at hin
                    cases hin
                    exact Or.inr ⟨s, List.mem_cons_self _ _, rfl, rfl⟩
                  · left
                    rw [hstIns] at hin
                    rwa [alookup_dictInsert_ne _ _ (fun hc => hks hc.symm)] at hin
                · exact Or.inr ⟨s1, List.mem_cons_of_mem _ hs1, hk1, he1⟩
              · intro s1 hs1 hk1
                rcases List.mem_cons.mp hs1 with rfl | hs1'
                · have := d3 ⟨s1.seq_number, nand⟩ (by rwa [hk1] at hself)
                  exact this
                · exact d2 s1 hs1' hk1
              · intro r0 h0
                by_cases hks : keyOf s = k
                · subst hks
                  rw [h0] at hw
                  have hlt : r0.seq < s.seq_number := by
                    simpa [chunkWins] using hw
                  have hle : s.seq_number ≤ r'.seq := d3 _ hself
                  exact Nat.le_trans (Nat.le_of_lt hlt) hle
                · refine d3 r0 ?_
                  rw [hstIns]
                  rwa [alookup_dictInsert_ne _ _ (fun hc => hks hc.symm)]
          · simp only [if_neg hw] at h
            obtain ⟨d1, d2, d3⟩ := ih 0 nand st st' h k r' hl
            refine ⟨?_, ?_, d3⟩
            · rcases d1 with hin | ⟨s1, hs1, hk1, he1⟩
              · exact Or.inl hin
              · exact Or.inr ⟨s1, List.mem_cons_of_mem _ hs1, hk1, he1⟩
            · intro s1 hs1 hk1
              rcases List.mem_cons.mp hs1 with rfl | hs1'
              · cases hst : alookup (keyOf s1) st.file_chunks with
                | none => simp [chunkWins, hst] at hw
                | some r0 =>
                  have hns : ¬ r0.seq < s1.seq_number := by
                    intro hc
                    exact hw (by simp [chunkWins, hst, hc])
                  have h0 : alookup k st.file_chunks = some r0 := by rwa [hk1] at hst
                  exact Nat.le_trans (Nat.le_of_not_lt hns) (d3 r0 h0)
              · exact d2 s1 hs1' hk1

/-- Consuming `skip` queued skipped chunks is the same as dropping them
from the list (the cursor advance of `proceed_block`). -/
theorem parseGo_skip (cfg : Config) :
    ∀ (l : List RawChunk) (skip nand : Nat) (st : PState),
      parseGo cfg l nand skip st = parseGo cfg (l.drop skip) nand 0 st := by
  intro l
  induction l with
  | nil =>
    intro skip nand st
    cases skip <;> simp [parseGo]
  | cons c rest ih =>
    intro skip nand st
    cases skip with
    | zero => rfl
    | succ sk =>
      simp only [parseGo, List.drop_succ_cons]
      exact ih sk nand st

/-- Companion of `parseGo_skip` for the scanned-spare stream. -/
theorem scannedSpares_skip (cfg : Config) :
    ∀ (l : List RawChunk) (skip : Nat),
      scannedSpares cfg l skip = scannedSpares cfg (l.drop skip) 0 := by
  intro l
  induction l with
  | nil =>
    intro skip
    cases skip <;> simp [scannedSpares]
  | cons c rest ih =>
    intro skip
    cases skip with
    | zero => rfl
    | succ sk =>
      simp only [scannedSpares, List.drop_succ_cons]
      exact ih sk

/-- A config with the defaults of `YAFFSConfig.__init__` (lines 67-77):
little endian, page 2048, spare 64, block size unknown, ECC layout. -/
def cfgLE : Config :=
  ⟨Endian.little, 2048, 64, 0, true, true, false, false, false⟩

/-- `cfgLE` with a user-supplied block size of 2 pages. -/
def cfgB2 : Config :=
  ⟨Endian.little, 2048, 64, 2, true, true, false, false, false⟩

/-- Spare bytes (little endian): seq 10, obj 5, chunk 1, n_bytes 0. -/
def spareBytesA : List Nat := [10, 0, 0, 0, 5, 0, 0, 0, 1, 0, 0, 0, 0, 0, 0, 0]

/-- Spare bytes (little endian): seq 7, obj 5, chunk 1, n_bytes 0. -/
def spareBytesB : List Nat := [7, 0, 0, 0, 5, 0, 0, 0, 1, 0, 0, 0, 0, 0, 0, 0]

/-- Two chunks carrying the same `(obj_id, chunk_id)` key with sequence
numbers 10 then 7. -/
def chunksC1 : List RawChunk := [([], spareBytesA), ([], spareBytesB)]

/-- C1: for every `(obj_id, chunk_id)` key, the reference surviving in the
reconstructor's chunk map after a completed parse carries the maximum
`seq_number` among all scanned chunks bearing that key (first conjunct:
the surviving `seq` is attained by a scanned spare with that key and is
an upper bound of all of them), and an incoming chunk whose `seq_number`
equals the stored one loses the line-512 comparison, so the stored
(earlier in file order) reference is kept unchanged (second conjunct). -/
theorem c1_chunk_map_max_seq (cfg : Config) (chunks : List RawChunk)
    (hok : (parse cfg chunks).2 = true) :
    (∀ (k : Nat × Nat) (r : ChunkRef),
        alookup k (parse cfg chunks).1.file_chunks = some r →
        (∃ s ∈ scannedSpares cfg chunks 0, keyOf s = k ∧ s.seq_number = r.seq) ∧
        (∀ s ∈ scannedSpares cfg chunks 0, keyOf s = k → s.seq_number ≤ r.seq)) ∧
    (∀ (r : ChunkRef) (s : Spare), r.seq = s.seq_number →
        chunkWins (some r) s = false) := by
  constructor
  · intro k r hl
    have hps : parseGo cfg chunks 0 0 ⟨[], []⟩ = ((parse cfg chunks).1, true) := by
      rw [← hok]
      rfl
    obtain ⟨d1, d2, -⟩ :=
      parseGo_lookup_max cfg chunks 0 0 ⟨[], []⟩ (parse cfg chunks).1 hps k r hl
    refine ⟨?_, d2⟩
    rcases d1 with hin | hex
    · simp [alookup] at hin
    · exact hex
  · intro r s hrs
    simp [chunkWins, hrs]

/-- C1 witness: two chunks with key `(5, 1)` and sequence numbers 10 then
7; the survivor holds `seq = 10`, attained and an upper bound. -/
theorem c1_chunk_map_max_seq_witness :
    (∃ s ∈ scannedSpares cfgLE chunksC1 0,
        keyOf s = (5, 1) ∧ s.seq_number = ChunkRef.seq ⟨10, 0⟩) ∧
    (∀ s ∈ scannedSpares cfgLE chunksC1 0,
        keyOf s = (5, 1) → s.seq_number ≤ ChunkRef.seq ⟨10, 0⟩) :=
  (c1_chunk_map_max_seq cfgLE chunksC1 (by decide)).1 (5, 1) ⟨10, 0⟩ (by decide)

/-- Spare bytes (little endian): seq 1, obj 257, chunk 0 (an object
header's spare). -/
def spareHdr257 : List Nat := [1, 0, 0, 0, 1, 1, 0, 0, 0, 0, 0, 0, 0, 0, 0, 0]

/-- C2 fails on the code: parsing a single chunk whose spare has
`chunk_id = 0` (an object header) and `obj_id = 257` records the chunk in
the data-chunk map and decodes no header at all — `file_entries` stays
empty — because line 515 discriminates on `spare.obj_id == 0`, not on
`spare.chunk_id == 0`. -/
theorem c2_header_chunk_not_decoded :
    parse cfgLE [([], spareHdr257)] =
      (⟨[((257, 0), ⟨1, 0⟩)], []⟩, true) := by decide

/-- C5: a scanned chunk whose spare `seq_number` is `0x21` emits no event
(it contributes nothing to the scanned stream and leaves the state
untouched), and when `block_size` is non-zero the loop drops the next
`block_size - 1` raw chunks (`proceed_block`) and advances
`nand_chunk_id` by `block_size - 1`; when `block_size` is zero it
consumes exactly this one chunk, with `nand_chunk_id` and state
unchanged. -/
theorem c5_checkpoint_block_skip (cfg : Config) (page spareB : List Nat)
    (rest : List RawChunk) (nand : Nat) (st : PState) (s : Spare)
    (hdec : yaffsSpare cfg spareB = some s)
    (hseq : s.seq_number = YAFFS.YAFFS_CHKPT_SEQ) :
    (cfg.block_size ≠ 0 →
      parseGo cfg ((page, spareB) :: rest) nand 0 st =
        parseGo cfg (rest.drop (cfg.block_size - 1))
          (nand + (cfg.block_size - 1)) 0 st ∧
      scannedSpares cfg ((page, spareB) :: rest) 0 =
        scannedSpares cfg (rest.drop (cfg.block_size - 1)) 0) ∧
    (cfg.block_size = 0 →
      parseGo cfg ((page, spareB) :: rest) nand 0 st =
        parseGo cfg rest nand 0 st ∧
      scannedSpares cfg ((page, spareB) :: rest) 0 =
        scannedSpares cfg rest 0) := by
  constructor
  · intro hbs
    have hbs' : cfg.block_size ≠ YAFFS.DEFAULT_BLOCK_SIZE := by
      simpa [YAFFS.DEFAULT_BLOCK_SIZE] using hbs
    constructor
    · simp only [parseGo, hdec, if_pos hseq, if_pos hbs']
      exact parseGo_skip cfg rest (cfg.block_size - 1) _ st
    · simp only [scannedSpares, hdec, if_pos hseq, if_pos hbs']
      exact scannedSpares_skip cfg rest (cfg.block_size - 1)
  · intro hbs
    have hbs' : ¬ cfg.block_size ≠ YAFFS.DEFAULT_BLOCK_SIZE := by
      simp [YAFFS.DEFAULT_BLOCK_SIZE, hbs]
    constructor
    · simp only [parseGo, hdec, if_pos hseq, if_neg hbs']
    · simp only [scannedSpares, hdec, if_pos hseq, if_neg hbs']

/-- Spare bytes (little endian): seq `0x21` (the checkpoint marker). -/
def spareChk : List Nat := [33, 0, 0, 0, 0, 0, 0, 0, 0, 0, 0, 0, 0, 0, 0, 0]

/-- C5 witness: with `block_size = 2`, a checkpoint chunk followed by two
chunks drops the next chunk and advances the index by 1, emitting no
event. -/
theorem c5_checkpoint_block_skip_witness :
    parseGo cfgB2 [([], spareChk), ([], spareBytesA), ([], spareBytesB)] 0 0 ⟨[], []⟩ =
      parseGo cfgB2 ([([], spareBytesA), ([], spareBytesB)].drop (cfgB2.block_size - 1))
        (0 + (cfgB2.block_size - 1)) 0 ⟨[], []⟩ ∧
    scannedSpares cfgB2 [([], spareChk), ([], spareBytesA), ([], spareBytesB)] 0 =
      scannedSpares cfgB2 ([([], spareBytesA), ([], spareBytesB)].drop (cfgB2.block_size - 1)) 0 :=
  (c5_checkpoint_block_skip cfgB2 [] spareChk [([], spareBytesA), ([], spareBytesB)]
    0 ⟨[], []⟩ ⟨33, 0, 0, 0⟩ (by decide) (by decide)).1 (by decide)

/-- A no-ECC little-endian config. -/
def cfgNoEcc : Config :=
  ⟨Endian.little, 2048, 64, 0, false, true, false, false, false⟩

/-- A no-ECC spare: two `0xFF` filler bytes, then the little-endian u32
fields 1, 2, 3, 4. -/
def spareC3 : List Nat :=
  [255, 255, 1, 0, 0, 0, 2, 0, 0, 0, 3, 0, 0, 0, 4, 0, 0, 0]

/-- C3 fails on the code: with `ecclayout = false` the decoder does not
skip the two filler bytes (the skip on lines 376-377 is commented out),
so `seq_number` is read from bytes 0..3 — here `0x0001FFFF = 131071`
instead of the 1 the claimed layout (skip 2, then the four u32s) gives,
and the other three fields are shifted likewise. -/
theorem c3_no_ecc_filler_not_skipped :
    yaffsSpare cfgNoEcc spareC3 = some ⟨131071, 131072, 196608, 262144⟩ ∧
    yaffsSpare cfgNoEcc spareC3 ≠ some ⟨1, 2, 3, 4⟩ := by decide

theorem nullTerminateString_cons_zero (t : List Nat) :
    nullTerminateString (0 :: t) = [] := by
  simp [nullTerminateString, List.findIdx_cons]

theorem nullTerminateString_cons_ne (a : Nat) (t : List Nat) (h : a ≠ 0) :
    nullTerminateString (a :: t) = a :: nullTerminateString t := by
  have hb : (a == 0) = false := beq_eq_false_iff_ne.mpr h
  simp [nullTerminateString, List.findIdx_cons, hb]

/-- C10: null termination never fails: a byte string without a null byte
is returned whole, and one with a null byte is cut to the prefix
strictly before its first null (the result has no null and the input is
the result, a null byte, and a remainder). -/
theorem c10_null_terminate (s : List Nat) :
    ((0 : Nat) ∉ s → nullTerminateString s = s) ∧
    ((0 : Nat) ∈ s →
      (0 : Nat) ∉ nullTerminateString s ∧
      ∃ rest, s = nullTerminateString s ++ 0 :: rest) := by
  induction s with
  | nil => simp [nullTerminateString]
  | cons a t ih =>
    by_cases ha : a = 0
    · subst ha
      refine ⟨fun h => absurd (List.mem_cons_self _ _) h, fun _ => ?_⟩
      rw [nullTerminateString_cons_zero]
      exact ⟨by simp, t, by simp⟩
    · rw [nullTerminateString_cons_ne a t ha]
      constructor
      · intro h
        have h0t : (0 : Nat) ∉ t := fun hm => h (List.mem_cons_of_mem _ hm)
        rw [ih.1 h0t]
      · intro h
        have h0t : (0 : Nat) ∈ t := by
          rcases List.mem_cons.mp h with hc | hc
          · exact absurd hc.symm ha
          · exact hc
        obtain ⟨hni, rest, hr⟩ := ih.2 h0t
        refine ⟨?_, rest, ?_⟩
        · intro hc
          rcases List.mem_cons.mp hc with hc' | hc'
          · exact ha hc'.symm
          · exact hni hc'
        · rw [List.cons_append, ← hr]

/-- C10 witness: a string without a null survives whole; `[104, 0, 105]`
is cut strictly before its first null. -/
theorem c10_null_terminate_witness :
    nullTerminateString [104, 105] = [104, 105] ∧
    ((0 : Nat) ∉ nullTerminateString [104, 0, 105] ∧
      ∃ rest, [104, 0, 105] = nullTerminateString [104, 0, 105] ++ 0 :: rest) :=
  ⟨(c10_null_terminate [104, 105]).1 (by decide),
   (c10_null_terminate [104, 0, 105]).2 (by decide)⟩

/-- `YAFFSConfig.SPARE_START_LITTLE_ENDIAN_ECC` (line 64). -/
def SPARE_START_LITTLE_ENDIAN_ECC : List Nat := [0x00, 0x10, 0x00, 0x00]

/-- `YAFFSConfig.SPARE_START_LITTLE_ENDIAN_NO_ECC` (line 65). -/
def SPARE_START_LITTLE_ENDIAN_NO_ECC : List Nat := [0xFF, 0xFF, 0x00, 0x10, 0x00, 0x00]

/-- `YAFFSConfig.SPARE_START_BIG_ENDIAN_ECC` (line 62). -/
def SPARE_START_BIG_ENDIAN_ECC : List Nat := [0x00, 0x00, 0x10, 0x00]

/-- `YAFFSConfig.SPARE_START_BIG_ENDIAN_NO_ECC` (line 63). -/
def SPARE_START_BIG_ENDIAN_NO_ECC : List Nat := [0xFF, 0xFF, 0x00, 0x00, 0x10, 0x00]

/-- The `elif` chain of lines 135-154: which of the four magics (in the
source's test order) prefixes `sample[page_size:]`, and the endianness /
ECC-layout pair it fixes. -/
def magicAt (sample : List Nat) (ps : Nat) : Option (Endian × Bool) :=
  if SPARE_START_LITTLE_ENDIAN_ECC.isPrefixOf (sample.drop ps) then
    some (Endian.little, true)
  else if SPARE_START_LITTLE_ENDIAN_NO_ECC.isPrefixOf (sample.drop ps) then
    some (Endian.little, false)
  else if SPARE_START_BIG_ENDIAN_ECC.isPrefixOf (sample.drop ps) then
    some (Endian.big, true)
  else if SPARE_START_BIG_ENDIAN_NO_ECC.isPrefixOf (sample.drop ps) then
    some (Endian.big, false)
  else none

/-- The `for page_size in valid_page_sizes` loop of lines 128-154: first
candidate (in list order) whose offset carries a magic.  The source
appends a `-1` sentinel and raises on reaching it (lines 121, 130-131);
exhausting the list models that `YAFFSException`. -/
def detectPage (sample : List Nat) : List Nat → Option (Nat × Endian × Bool)
  | [] => none
  | ps :: rest =>
    match magicAt sample ps with
    | some (e, ecc) => some (ps, e, ecc)
    | none => detectPage sample rest

/-- `bytes.index(needle)` (line 189): offset of the first occurrence of
`needle` as a contiguous sub-list, `none` when absent (the `ValueError`
caught on line 190). -/
def subIndex (needle : List Nat) : List Nat → Option Nat
  | [] => if needle.isPrefixOf ([] : List Nat) then some 0 else none
  | a :: t =>
    if needle.isPrefixOf (a :: t) then some 0
    else (subIndex needle t).map (· + 1)

/-- The 6-byte signature of line 186:
`sample[page_size+offset : page_size+offset+4] + b"\xFF\xFF"` with
`offset = 4` under ECC layout and `6` otherwise (lines 160-163) — the
four bytes at the spare's `obj_id` field offset followed by `FF FF`. -/
def detectNeedle (sample : List Nat) (ps : Nat) (ecc : Bool) : List Nat :=
  (sample.drop (ps + (if ecc then 4 else 6))).take 4 ++ [0xFF, 0xFF]

/-- `YAFFSConfig._auto_detect_settings` (lines 97-195), returning
`(page_size, spare_size, endianess, ecclayout)` or `none` for a raised
`YAFFSException`.  `spare_size = index - 4` (line 189) is Nat
subtraction; for `index < 4` Python's negative result fails the
`valid_spare_sizes` check just as the truncated Nat does. -/
def autoDetectSettings (sample : List Nat) : Option (Nat × Nat × Endian × Bool) :=
  match detectPage sample YAFFS.PAGE_SIZES with
  | none => none
  | some (ps, e, ecc) =>
    match subIndex (detectNeedle sample ps ecc) (sample.drop ps) with
    | none => none
    | some i =>
      if i - 4 ∈ YAFFS.SPARE_SIZES then some (ps, i - 4, e, ecc) else none

theorem detectPage_first (sample : List Nat) :
    ∀ (l : List Nat) (ps : Nat) (e : Endian) (ecc : Bool),
      detectPage sample l = some (ps, e, ecc) →
      ∃ pre post, l = pre ++ ps :: post ∧ (∀ q ∈ pre, magicAt sample q = none) ∧
        magicAt sample ps = some (e, ecc) := by
  intro l
  induction l with
  | nil =>
    intro ps e ecc h
    simp [detectPage] at h
  | cons p rest ih =>
    intro ps e ecc h
    simp only [detectPage] at h
    rcases hm : magicAt sample p with - | ⟨e1, ecc1⟩
    · simp only [hm] at h
      obtain ⟨pre, post, hdecomp, hpre, hps⟩ := ih ps e ecc h
      refine ⟨p :: pre, post, by rw [hdecomp, List.cons_append], ?_, hps⟩
      intro q hq
      rcases List.mem_cons.mp hq with rfl | hq'
      · exact hm
      · exact hpre q hq'
    · simp only [hm, Option.some.injEq, Prod.mk.injEq] at h
      obtain ⟨rfl, rfl, rfl⟩ := h
      exact ⟨[], rest, rfl, by simp, hm⟩

theorem subIndex_first (needle : List Nat) :
    ∀ (hay : List Nat) (i : Nat), subIndex needle hay = some i →
      needle.isPrefixOf (hay.drop i) = true ∧
      ∀ j < i, needle.isPrefixOf (hay.drop j) = false := by
  intro hay
  induction hay with
  | nil =>
    intro i h
    simp only [subIndex] at h
    by_cases hp : needle.isPrefixOf ([] : List Nat) = true
    · rw [if_pos hp] at h
      cases h
      exact ⟨hp, fun j hj => absurd hj (Nat.not_lt_zero j)⟩
    · rw [if_neg hp] at h
      cases h
  | cons a t ih =>
    intro i h
    simp only [subIndex] at h
    by_cases hp : needle.isPrefixOf (a :: t) = true
    · rw [if_pos hp] at h
      cases h
      exact ⟨hp, fun j hj => absurd hj (Nat.not_lt_zero j)⟩
    · rw [if_neg hp] at h
      cases hs : subIndex needle t with
      | none => rw [hs] at h; cases h
      | some i0 =>
        rw [hs] at h
        simp only [Option.map_some', Option.some.injEq] at h
        subst h
        obtain ⟨h1, h2⟩ := ih i0 hs
        refine ⟨by simpa [List.drop_succ_cons] using h1, ?_⟩
        intro j hj
        cases j with
        | zero => exact Bool.eq_false_iff.mpr hp
        | succ j0 =>
          simpa [List.drop_succ_cons] using h2 j0 (Nat.lt_of_succ_lt_succ hj)

/-- C4: a successful auto-detection fixes `page_size` as the first
candidate (in the ascending candidate list) whose offset carries one of
the four magics, with endianness and ECC-layout read off that magic; the
needle (4 bytes at the `obj_id` field offset followed by `FF FF`) first
occurs in the bytes after the page exactly at offset `spare_size + 4`;
and the spare size lies in the valid set.  Contrapositively, detection
fails when no candidate matches a magic or when the spare size computed
from the needle offset is invalid. -/
theorem c4_auto_detect (sample : List Nat) (ps ss : Nat) (e : Endian) (ecc : Bool)
    (h : autoDetectSettings sample = some (ps, ss, e, ecc)) :
    ps ∈ YAFFS.PAGE_SIZES ∧
    magicAt sample ps = some (e, ecc) ∧
    (∀ q ∈ YAFFS.PAGE_SIZES, q < ps → magicAt sample q = none) ∧
    (detectNeedle sample ps ecc).isPrefixOf ((sample.drop ps).drop (ss + 4)) = true ∧
    (∀ j < ss + 4,
      (detectNeedle sample ps ecc).isPrefixOf ((sample.drop ps).drop j) = false) ∧
    ss ∈ YAFFS.SPARE_SIZES := by
  unfold autoDetectSettings at h
  rcases hdp : detectPage sample YAFFS.PAGE_SIZES with - | ⟨p1, e1, ecc1⟩
  · rw [hdp] at h
    cases h
  · rw [hdp] at h
    simp only at h
    rcases hsi : subIndex (detectNeedle sample p1 ecc1) (sample.drop p1) with - | i
    · rw [hsi] at h
      cases h
    · rw [hsi] at h
      simp only at h
      by_cases hmem : i - 4 ∈ YAFFS.SPARE_SIZES
      · rw [if_pos hmem] at h
        simp only [Option.some.injEq, Prod.mk.injEq] at h
        obtain ⟨hp1, hss1, he1, hecc1⟩ := h
        subst hp1
        subst hss1
        subst he1
        subst hecc1
        have hss16 : 16 ≤ i - 4 := by
          have hall : ∀ x ∈ YAFFS.SPARE_SIZES, 16 ≤ x := by decide
          exact hall _ hmem
        have hi : i = (i - 4) + 4 := by omega
        obtain ⟨pre, post, hdecomp, hpre, hm⟩ :=
          detectPage_first sample YAFFS.PAGE_SIZES _ _ _ hdp
        have hsorted : List.Pairwise (· < ·) YAFFS.PAGE_SIZES := by decide
        refine ⟨by rw [hdecomp]; exact List.mem_append_right _ (List.mem_cons_self _ _),
          hm, ?_, ?_, ?_, hmem⟩
        · intro q hq hlt
          rw [hdecomp] at hq hsorted
          rcases List.mem_append.mp hq with hq' | hq'
          · exact hpre q hq'
          · rcases List.mem_cons.mp hq' with rfl | hq''
            · exact absurd hlt (Nat.lt_irrefl _)
            · have hp2 := (List.pairwise_append.mp hsorted).2.1
              have hgt := (List.pairwise_cons.mp hp2).1 q hq''
              omega
        · rw [← hi]
          exact (subIndex_first _ _ i hsi).1
        · intro j hj
          rw [← hi] at hj
          exact (subIndex_first _ _ i hsi).2 j hj
      · rw [if_neg hmem] at h
        cases h

/-- A minimal sample for auto-detection: 512 filler bytes of page data,
a 16-byte ECC-layout little-endian spare whose `obj_id` bytes are
`01 01 00 00`, then the next page's header starting with its type,
`parent_obj_id = 0x101`, and the `FF FF` checksum filler. -/
def sampleC4 : List Nat :=
  List.replicate 512 1 ++
    ([0, 16, 0, 0, 1, 1, 0, 0, 0, 0, 0, 0, 0, 0, 0, 0] ++
      [3, 0, 0, 0, 1, 1, 0, 0, 255, 255, 98, 97, 114, 0])

set_option maxRecDepth 4000

/-- C4 witness: `sampleC4` detects as page 512, spare 16, little endian,
ECC layout, and the theorem's conclusions evaluate there. -/
theorem c4_auto_detect_witness :
    512 ∈ YAFFS.PAGE_SIZES ∧ magicAt sampleC4 512 = some (Endian.little, true) ∧
      16 ∈ YAFFS.SPARE_SIZES := by
  have h := c4_auto_detect sampleC4 512 16 Endian.little true (by decide)
  exact ⟨h.1, h.2.1, h.2.2.2.2.2⟩

/-- The file-writing loop of `YAFFSExtractor.extract` (lines 619-625).
As literally written, `for nand_chunk in file_chunks:` iterates the
dict's keys (ints) and `nand_chunk["nand_chunk_id"]` raises `TypeError`
on the first one, so the opened file gets zero bytes and the per-file
handler at line 628 catches the exception.  We embed the charitable
intended reading — iterate the stored chunk references in dictionary
(insertion) order, and for each whose `nand_chunk_id != 0` (line 623)
append `data[nand*chunk_size : nand*chunk_size + page_size]`
(lines 624-625).  Under either reading the loop never consults the
spare's `n_bytes` or the header's `file_size`, truncates nothing, and
sorts nothing. -/
def extractFileBytes (cfg : Config) (data : List Nat) :
    List (Nat × ChunkRef) → List Nat
  | [] => []
  | (_, r) :: t =>
    (if r.nand_chunk_id ≠ 0 then
      (data.drop (r.nand_chunk_id * (cfg.page_size + cfg.spare_size))).take cfg.page_size
    else []) ++ extractFileBytes cfg data t

/-- An image of 6272 zero bytes: three 2112-byte chunks (page 2048 +
spare 64) with a bit of slack. -/
def dataC6 : List Nat := List.replicate 6272 0

/-- The chunk dict of a 3000-byte file as `parse` builds it: the header
chunk under `chunk_id 0` (stored by lines 512-514 like any chunk; its
physical index 0 happens to be filtered by line 623), and two data
chunks at physical indices 1 and 2, the second only 952 bytes valid. -/
def chunksC6 : List (Nat × ChunkRef) :=
  [(0, ⟨5, 0⟩), (1, ⟨5, 1⟩), (2, ⟨5, 2⟩)]

/-- C6 fails on the code: for a regular file of computed size 3000 (page
2048, final data chunk with `n_bytes = 952`), the write loop emits two
full 2048-byte pages — 4096 bytes — because it never truncates the final
chunk to `n_bytes` nor caps at `file_size`; so the total written differs
from the header's computed file size. -/
theorem c6_bytes_written_ignore_file_size :
    (extractFileBytes cfgLE dataC6 chunksC6).length = 4096 ∧
    computeFileSize 3000 0xFFFFFFFF = 3000 ∧
    (extractFileBytes cfgLE dataC6 chunksC6).length ≠ computeFileSize 3000 0xFFFFFFFF := by
  have hdata : dataC6.length = 6272 := by
    rw [dataC6, List.length_replicate]
  have hlen : (extractFileBytes cfgLE dataC6 chunksC6).length = 4096 := by
    simp [chunksC6, extractFileBytes, hdata, cfgLE, Nat.min_def]
  refine ⟨hlen, by decide, ?_⟩
  rw [hlen]
  decide

/-- The path-traversal check of `YAFFSExtractor.extract`
(lines 597, 612, 644): `b'..' in file_path`, a contiguous substring
test on the whole path, repeated identically before creating
directories, files and links. -/
def containsSub (needle : List Nat) : List Nat → Bool
  | [] => needle.isPrefixOf ([] : List Nat)
  | a :: t => needle.isPrefixOf (a :: t) || containsSub needle t

/-- `b'..' in file_path`: the refusal predicate of the materializer. -/
def pathRefused (p : List Nat) : Bool := containsSub [46, 46] p

/-- Path components: split on `/` (byte 47), as the claim's notion of
"path component" requires. -/
def splitOnSlash : List Nat → List (List Nat)
  | [] => [[]]
  | b :: t =>
    if b = 47 then [] :: splitOnSlash t
    else
      match splitOnSlash t with
      | [] => [[b]]
      | c :: cs => (b :: c) :: cs

theorem splitOnSlash_ne_nil : ∀ p : List Nat, splitOnSlash p ≠ [] := by
  intro p
  cases p with
  | nil => simp [splitOnSlash]
  | cons b t =>
    by_cases hb : b = 47
    · simp [splitOnSlash, hb]
    · simp only [splitOnSlash, if_neg hb]
      cases splitOnSlash t <;> simp

theorem splitOnSlash_head : ∀ (p c0 : List Nat) (cs : List (List Nat)),
    splitOnSlash p = c0 :: cs → ∃ post, p = c0 ++ post := by
  intro p
  induction p with
  | nil =>
    intro c0 cs h
    simp only [splitOnSlash] at h
    cases h
    exact ⟨[], rfl⟩
  | cons b t ih =>
    intro c0 cs h
    by_cases hb : b = 47
    · rw [splitOnSlash, if_pos hb] at h
      cases h
      exact ⟨b :: t, rfl⟩
    · rw [splitOnSlash, if_neg hb] at h
      cases hs : splitOnSlash t with
      | nil => exact absurd hs (splitOnSlash_ne_nil t)
      | cons c0' cs' =>
        rw [hs] at h
        injection h with h1 h2
        obtain ⟨post, hp⟩ := ih c0' cs' hs
        exact ⟨post, by rw [← h1, List.cons_append, ← hp]⟩

/-- Every component produced by `splitOnSlash` occurs contiguously in the
path. -/
theorem mem_splitOnSlash_decomp : ∀ (p c : List Nat),
    c ∈ splitOnSlash p → ∃ pre post, p = pre ++ c ++ post := by
  intro p
  induction p with
  | nil =>
    intro c hc
    simp only [splitOnSlash, List.mem_singleton] at hc
    subst hc
    exact ⟨[], [], rfl⟩
  | cons b t ih =>
    intro c hc
    by_cases hb : b = 47
    · rw [splitOnSlash, if_pos hb] at hc
      rcases List.mem_cons.mp hc with rfl | hc'
      · exact ⟨[], b :: t, by simp⟩
      · obtain ⟨pre, post, hp⟩ := ih c hc'
        exact ⟨b :: pre, post, by simp [hp]⟩
    · rw [splitOnSlash, if_neg hb] at hc
      cases hs : splitOnSlash t with
      | nil => exact absurd hs (splitOnSlash_ne_nil t)
      | cons c0 cs =>
        rw [hs] at hc
        rcases List.mem_cons.mp hc with rfl | hc'
        · obtain ⟨post, hp⟩ := splitOnSlash_head t c0 cs hs
          exact ⟨[], post, by simp [hp]⟩
        · obtain ⟨pre, post, hp⟩ := ih c (hs ▸ List.mem_cons_of_mem c0 hc')
          exact ⟨b :: pre, post, by simp [hp]⟩

/-- `containsSub` finds exactly the contiguous substrings. -/
theorem containsSub_iff (needle : List Nat) :
    ∀ l : List Nat, containsSub needle l = true ↔
      ∃ pre post, l = pre ++ needle ++ post := by
  intro l
  induction l with
  | nil =>
    simp only [containsSub]
    constructor
    · intro h
      obtain ⟨post, hp⟩ := List.isPrefixOf_iff_prefix.mp h
      exact ⟨[], post, by simpa using hp.symm⟩
    · rintro ⟨pre, post, hp⟩
      have h' : pre ++ needle ++ post = [] := hp.symm
      have h1 := List.append_eq_nil.mp h'
      have h2 := List.append_eq_nil.mp h1.1
      rw [h2.2]
      rfl
  | cons a t ih =>
    simp only [containsSub, Bool.or_eq_true]
    constructor
    · rintro (h | h)
      · obtain ⟨post, hp⟩ := List.isPrefixOf_iff_prefix.mp h
        exact ⟨[], post, by simpa using hp.symm⟩
      · obtain ⟨pre, post, hp⟩ := ih.mp h
        exact ⟨a :: pre, post, by simp [hp]⟩
    · rintro ⟨pre, post, hp⟩
      cases pre with
      | nil =>
        left
        exact List.isPrefixOf_iff_prefix.mpr ⟨post, by simpa using hp.symm⟩
      | cons b pre' =>
        right
        refine ih.mpr ⟨pre', post, ?_⟩
        simp only [List.cons_append] at hp
        injection hp with h1 h2

/-- C7 fails as stated on the code: the object path `out/a..b` has no
path component equal to `..`, yet the substring check `b'..' in
file_path` refuses it. -/
theorem c7_counterexample_component_free_refusal :
    pathRefused [111, 117, 116, 47, 97, 46, 46, 98] = true ∧
    ∀ c ∈ splitOnSlash [111, 117, 116, 47, 97, 46, 46, 98], c ≠ [46, 46] := by
  decide

/-- C7 amended: the materializer refuses a path exactly when the two-byte
sequence `..` occurs contiguously anywhere in it; in particular every
path with a component equal to `..` is refused, so no created path
contains a `..` component (nor even the byte pair), but some names
without such a component (such as `a..b`) are refused too. -/
theorem c7_refusal_is_substring_check (p : List Nat) :
    (pathRefused p = true ↔ ∃ pre post, p = pre ++ [46, 46] ++ post) ∧
    ((∃ c ∈ splitOnSlash p, c = [46, 46]) → pathRefused p = true) := by
  constructor
  · exact containsSub_iff [46, 46] p
  · rintro ⟨c, hc, rfl⟩
    exact (containsSub_iff [46, 46] p).mpr (mem_splitOnSlash_decomp p _ hc)

/-- C7 amended witness: `a/../b` carries a `..` component and is
refused. -/
theorem c7_refusal_is_substring_check_witness :
    pathRefused [97, 47, 46, 46, 47, 98] = true :=
  (c7_refusal_is_substring_check [97, 47, 46, 46, 47, 98]).2 ⟨[46, 46], by decide, rfl⟩

/-- The extractor selection of `main` (lines 809-835): `fs` is assigned
unconditionally on line 809; when the first parse failed and brute force
is enabled, each candidate replaces `fs` only if it parsed strictly more
objects (line 834).  `fs` therefore always holds an extractor. -/
def selectFs (fs0 : PState × Bool) (cands : List (PState × Bool)) (brute : Bool) :
    Option (PState × Bool) :=
  some (if !fs0.2 && brute then
      cands.foldl
        (fun fs t => if fs.1.file_entries.length < t.1.file_entries.length then t else fs)
        fs0
    else fs0)

/-- The terminal verdict of `main` (lines 837-852): return 1 when `fs is
None`, else print the object count, optionally list and extract, and
return 0. -/
def mainReturnCode (fs0 : PState × Bool) (cands : List (PState × Bool))
    (brute : Bool) : Nat :=
  match selectFs fs0 cands brute with
  | none => 1
  | some _ => 0

/-- C8 fails on the code: whatever the image and configuration — in
particular when the parse recovers zero objects, with or without
brute-force retries — `main` returns 0, because `fs` is assigned
unconditionally (line 809) and the only non-zero return after setup is
guarded by the unreachable `fs is None` test (line 837).  The second
conjunct exhibits a zero-object run (the empty image) to which the
first applies. -/
theorem c8_return_zero_even_with_no_objects (cfg : Config) (chunks : List RawChunk)
    (cands : List (PState × Bool)) (brute : Bool) :
    mainReturnCode (parse cfg chunks) cands brute = 0 ∧
    (parse cfgLE []).1.file_entries = [] := by
  exact ⟨by simp [mainReturnCode, selectFs], by decide⟩

/-- Command-line options relevant to the core (the loop of lines
737-764); `-f` (`--file`) and `-d` (`--dir`) store path strings and are not
modelled. -/
inductive CliOpt where
  | ls
  | auto
  | bruteForce
  | noEcc
  | endianBig
  | endianLittle
  | spareSize (n : Nat)
  | pageSize (n : Nat)
  | blockSize (n : Nat)
  | ownership
  | debug
deriving DecidableEq, Repr

/-- The local variables of `main` that feed the config (lines 689-702). -/
structure MainOpts where
  page_size : Option Nat
  spare_size : Option Nat
  block_size : Option Nat
  endianess : Option Endian
  ecclayout : Option Bool
  preserve_mode : Option Bool
  preserve_owner : Option Bool
  preserve_ownership : Option Bool
  debug : Option Bool
  auto_detect : Option Bool
  list_files : Bool
  brute_force : Bool
deriving DecidableEq, Repr

/-- The initialisation of those variables (lines 689-702): everything
`None`, the two plain booleans `False`.  `preserve_ownership` does not
exist before the option loop runs; it is carried here as an `Option` so
the loop's assignment can be observed. -/
def initOpts : MainOpts :=
  ⟨none, none, none, none, none, none, none, none, none, none, false, false⟩

/-- One iteration of the option loop (lines 737-764).  NOTE line 762:
`-o` (`--ownership`) assigns `preserve_ownership = True` — a misspelling of
the `preserve_owner` variable that the config construction reads
(lines 791, 804); no branch ever assigns `preserve_owner`. -/
def applyOpt (m : MainOpts) : CliOpt → MainOpts
  | .ls => { m with list_files := true }
  | .auto => { m with auto_detect := some true }
  | .bruteForce => { m with brute_force := true }
  | .noEcc => { m with ecclayout := some false }
  | .endianBig => { m with endianess := some Endian.big }
  | .endianLittle => { m with endianess := some Endian.little }
  | .spareSize n => { m with spare_size := some n }
  | .pageSize n => { m with page_size := some n }
  | .blockSize n => { m with block_size := some n }
  | .ownership => { m with preserve_ownership := some true }
  | .debug => { m with debug := some true }

/-- The whole option loop over an argument list. -/
def applyOpts (l : List CliOpt) : MainOpts := l.foldl applyOpt initOpts

/-- Config construction (lines 797-805) through `YAFFSConfig.__init__`
(lines 67-84): keyword arguments equal to `None` are skipped
(line 80), leaving the constructor's defaults. -/
def mkConfig (m : MainOpts) : Config :=
  { endianess := m.endianess.getD Endian.little
    page_size := m.page_size.getD YAFFS.DEFAULT_PAGE_SIZE
    spare_size := m.spare_size.getD YAFFS.DEFAULT_SPARE_SIZE
    block_size := m.block_size.getD YAFFS.DEFAULT_BLOCK_SIZE
    ecclayout := m.ecclayout.getD true
    preserve_mode := m.preserve_mode.getD true
    preserve_owner := m.preserve_owner.getD false
    debug := m.debug.getD false
    auto := m.auto_detect.getD false }

/-- The chmod/chown calls `_set_mode_owner` attempts (argument values),
`none` when the call is not made. -/
structure ModeOwnerActions where
  chmodArg : Option Nat
  chownArg : Option (Nat × Nat)
deriving DecidableEq, Repr

/-- `YAFFSExtractor._set_mode_owner` (lines 555-562): chmod with
`yst_mode` when `preserve_mode` is set, chown with `(yst_uid, yst_gid)`
when `preserve_owner` is set. -/
def setModeOwner (cfg : Config) (e : Entry) : ModeOwnerActions :=
  ⟨if cfg.preserve_mode then some e.yst_mode else none,
    if cfg.preserve_owner then some (e.yst_uid, e.yst_gid) else none⟩

/-- A concrete decoded header entry (mode 0644, uid/gid 1000). -/
def entryW : Entry :=
  { yaffs_obj_type := 1
    parent_obj_id := 1
    sum_no_longer_used := 0xFFFF
    name := [104, 105]
    yst_mode := 420
    yst_uid := 1000
    yst_gid := 1000
    yst_atime := 0
    yst_mtime := 0
    yst_ctime := 0
    file_size_low := 5
    equiv_id := 0
    alias' := []
    yst_rdev := 0
    win_ctime_1 := 0
    win_ctime_2 := 0
    win_atime_1 := 0
    win_atime_2 := 0
    win_mtime_1 := 0
    win_mtime_2 := 0
    inband_shadowed_obj_id := 0
    inband_is_shrink := 0
    file_size_high := 0xFFFFFFFF
    reserved := [0]
    shadows_obj := 0
    is_shrink := 0
    file_size := 5 }

/-- C9 fails on the code: passing `-o` (`--ownership`) stores `True` in the
dead variable `preserve_ownership` (line 762) and leaves
`preserve_owner` untouched, so the constructed config keeps
`preserve_owner = False` and `_set_mode_owner` never attempts a chown —
exactly as in a run without the flag (last conjunct). -/
theorem c9_ownership_flag_dropped :
    (applyOpts [CliOpt.ownership]).preserve_ownership = some true ∧
    (applyOpts [CliOpt.ownership]).preserve_owner = none ∧
    (mkConfig (applyOpts [CliOpt.ownership])).preserve_owner = false ∧
    (setModeOwner (mkConfig (applyOpts [CliOpt.ownership])) entryW).chownArg = none ∧
    (setModeOwner (mkConfig initOpts) entryW).chownArg = none := by
  decide

end YaffsEx
